import Mathlib

/-!
Verification of the frontend-test-portal evaluation and asset-management
code.  Pure fragments of the JavaScript source are embedded as Lean
functions; strings are modelled as lists of UTF-16 code points where
character arithmetic matters.  Components of the evaluation engine whose
implementation files are not part of the repository snapshot (the
aggregator, comparators and render service) are modelled from the
specification text, and are marked as such in their doc comments.
-/

namespace Portal

/-! ## Upload filename sanitization (`src/backend/routes/assets.js`, multer.diskStorage) -/

/-- A UTF-16 code point is kept by the regex class `[a-zA-Z0-9_-]` used in
`filename: ... .replace(/[^a-zA-Z0-9_-]/g, '-')`.  Code 45 is `-`, 95 is `_`. -/
def KeptByRegex (n : Nat) : Prop :=
  (65 ≤ n ∧ n ≤ 90) ∨ (97 ≤ n ∧ n ≤ 122) ∨ (48 ≤ n ∧ n ≤ 57) ∨ n = 95 ∨ n = 45

instance : DecidablePred KeptByRegex := fun n => by
  unfold KeptByRegex; infer_instance

/-- One step of `.replace(/[^a-zA-Z0-9_-]/g, '-')`: a code point outside the
kept class becomes `-` (code 45). -/
def sanitizeCode (n : Nat) : Nat :=
  if KeptByRegex n then n else 45

/-- ASCII lowercasing, as `String.prototype.toLowerCase` acts on the code
points that survive the regex replacement (`A`–`Z` shift by 32). -/
def lowerCode (n : Nat) : Nat :=
  if 65 ≤ n ∧ n ≤ 90 then n + 32 else n

/-- The stored base name computed by the multer `filename` callback:
`path.basename(file.originalname, ext).replace(/[^a-zA-Z0-9_-]/g, '-').toLowerCase()`,
on the code points of the original base name. -/
def sanitizeBaseName (s : List Nat) : List Nat :=
  (s.map sanitizeCode).map lowerCode

/-- A code point that may appear in a stored base name: lowercase letter,
digit, hyphen or underscore. -/
def StoredSafeCode (n : Nat) : Prop :=
  (97 ≤ n ∧ n ≤ 122) ∨ (48 ≤ n ∧ n ≤ 57) ∨ n = 45 ∨ n = 95

instance : DecidablePred StoredSafeCode := fun n => by
  unfold StoredSafeCode; infer_instance

theorem storedSafeCode_lower_sanitize (n : Nat) :
    StoredSafeCode (lowerCode (sanitizeCode n)) := by
  unfold StoredSafeCode lowerCode sanitizeCode KeptByRegex
  split_ifs <;> omega

/-- C10: every code point of the stored base name is a lowercase letter,
digit, hyphen or underscore, and every original code point outside the kept
class `[a-zA-Z0-9_-]` — path separators and dots included — is replaced by a
hyphen (code 45), so the stored base name cannot escape the upload
directory. -/
theorem c10_stored_base_name_safe (s : List Nat) :
    sanitizeBaseName s = s.map (fun n => lowerCode (sanitizeCode n)) ∧
    (∀ n ∈ sanitizeBaseName s, StoredSafeCode n) ∧
    (∀ n ∈ s, ¬ KeptByRegex n → lowerCode (sanitizeCode n) = 45) := by
  refine ⟨by simp [sanitizeBaseName, List.map_map, Function.comp], ?_, ?_⟩
  · intro n hn
    simp only [sanitizeBaseName, List.map_map, List.mem_map, Function.comp] at hn
    obtain ⟨a, -, rfl⟩ := hn
    exact storedSafeCode_lower_sanitize a
  · intro n _ h
    simp only [sanitizeCode, if_neg h, lowerCode]
    norm_num

/-- Witness for C10 at the concrete base name "My.File/x" (code points
77,121,46,70,105,108,101,47,120): the dot and the slash become hyphens and
every stored code point is safe. -/
theorem c10_stored_base_name_safe_witness :
    sanitizeBaseName [77, 121, 46, 70, 105, 108, 101, 47, 120] =
      [109, 121, 45, 102, 105, 108, 101, 45, 120] ∧
    StoredSafeCode 109 ∧ lowerCode (sanitizeCode 47) = 45 := by
  refine ⟨by decide, ?_, ?_⟩
  · exact (c10_stored_base_name_safe [77]).2.1 109 (by decide)
  · exact (c10_stored_base_name_safe [47]).2.2 47 (by decide) (by decide)

/-! ## Score aggregation (spec §4.5; `services/evaluator.js` is not in the snapshot) -/

/-- One scored dimension (spec §3 `DimensionScore`, restricted to the fields
the aggregator reads). -/
structure DimensionScore where
  name : String
  score : ℚ
  weight : ℚ
  deriving DecidableEq

/-- Per-challenge thresholds (spec §3 `Thresholds`). -/
structure Thresholds where
  perDimension : List (String × ℚ)
  overallMinScore : ℚ
  deriving DecidableEq

/-- Modelled from the spec: the Score Aggregator's final score,
`finalScore = round(Σ score_i × weight_i / 100)`, clamped to `[0,100]`
(spec §4.5; the implementing file `services/evaluator.js` is not in the
repository snapshot). -/
def finalScore (scores : List DimensionScore) : ℤ :=
  min 100 (max 0 (round ((scores.map fun d => d.score * d.weight).sum / 100)))

/-- Modelled from the spec: the Score Aggregator's verdict,
`passed = finalScore ≥ thresholds.overallMinScore AND every dimension with a
configured per-dimension minimum meets it` (spec §4.5). -/
def aggregatePassed (final : ℤ) (scores : List DimensionScore) (th : Thresholds) : Bool :=
  decide (th.overallMinScore ≤ (final : ℚ)) &&
    scores.all fun d =>
      match th.perDimension.lookup d.name with
      | some m => decide (m ≤ d.score)
      | none => true

/-- Modelled from the spec: `aggregate(scores, thresholds) -> {finalScore, passed}`
(spec §4.5). -/
def aggregate (scores : List DimensionScore) (th : Thresholds) : ℤ × Bool :=
  (finalScore scores, aggregatePassed (finalScore scores) scores th)

theorem sum_mul_weight_nonneg (scores : List DimensionScore)
    (hs : ∀ d ∈ scores, 0 ≤ d.score ∧ d.score ≤ 100 ∧ 0 ≤ d.weight) :
    0 ≤ (scores.map fun d => d.score * d.weight).sum := by
  induction scores with
  | nil => simp
  | cons d l ih =>
    simp only [List.map_cons, List.sum_cons]
    have hd := hs d (List.mem_cons_self d l)
    have := ih fun x hx => hs x (List.mem_cons_of_mem d hx)
    nlinarith [hd.1, hd.2.2]

theorem sum_mul_weight_le (scores : List DimensionScore)
    (hs : ∀ d ∈ scores, 0 ≤ d.score ∧ d.score ≤ 100 ∧ 0 ≤ d.weight) :
    (scores.map fun d => d.score * d.weight).sum ≤
      100 * (scores.map fun d => d.weight).sum := by
  induction scores with
  | nil => simp
  | cons d l ih =>
    simp only [List.map_cons, List.sum_cons]
    have hd := hs d (List.mem_cons_self d l)
    have := ih fun x hx => hs x (List.mem_cons_of_mem d hx)
    nlinarith [hd.1, hd.2.1, hd.2.2]

/-- C2: when every dimension score is in `[0,100]`, weights are nonnegative and
sum to 100, the clamp in the aggregated final score is the identity — the final
score equals `round(Σ score_i × weight_i / 100)` — and it lies in `[0,100]`. -/
theorem c2_final_score_formula_and_range (scores : List DimensionScore)
    (hs : ∀ d ∈ scores, 0 ≤ d.score ∧ d.score ≤ 100 ∧ 0 ≤ d.weight)
    (hw : (scores.map fun d => d.weight).sum = 100) :
    finalScore scores = round ((scores.map fun d => d.score * d.weight).sum / 100) ∧
    0 ≤ finalScore scores ∧ finalScore scores ≤ 100 := by
  set x : ℚ := (scores.map fun d => d.score * d.weight).sum / 100 with hx
  have hx0 : 0 ≤ x := by
    have := sum_mul_weight_nonneg scores hs
    positivity
  have hx100 : x ≤ 100 := by
    have h := sum_mul_weight_le scores hs
    rw [hw] at h
    rw [hx, div_le_iff₀ (by norm_num : (0:ℚ) < 100)]
    linarith
  have hr0 : 0 ≤ round x := by
    rw [round_eq]
    exact Int.le_floor.mpr (by push_cast; linarith)
  have hr100 : round x ≤ 100 := by
    rw [round_eq]
    have : (⌊x + 1 / 2⌋ : ℤ) < 101 := Int.floor_lt.mpr (by push_cast; linarith)
    omega
  unfold finalScore
  rw [← hx]
  omega

/-- Witness for C2 at the spec's worked scenario (visual 60, the other three
dimensions 100, weights 25/25/25/25). -/
theorem c2_final_score_formula_and_range_witness :
    0 ≤ finalScore [⟨"structure", 100, 25⟩, ⟨"visual", 60, 25⟩,
        ⟨"content", 100, 25⟩, ⟨"tag", 100, 25⟩] ∧
    finalScore [⟨"structure", 100, 25⟩, ⟨"visual", 60, 25⟩,
        ⟨"content", 100, 25⟩, ⟨"tag", 100, 25⟩] ≤ 100 :=
  (c2_final_score_formula_and_range _
    (by intro d hd; fin_cases hd <;> norm_num) (by norm_num)).2

/-- C3: the aggregator marks an evaluation passed exactly when the final score
reaches `overallMinScore` and every dimension having a configured per-dimension
minimum scores at least that minimum. -/
theorem c3_passed_iff (scores : List DimensionScore) (th : Thresholds) :
    (aggregate scores th).2 = true ↔
      (th.overallMinScore ≤ ((aggregate scores th).1 : ℚ) ∧
       ∀ d ∈ scores, ∀ m, th.perDimension.lookup d.name = some m → m ≤ d.score) := by
  unfold aggregate aggregatePassed
  simp only [Bool.and_eq_true, decide_eq_true_eq, List.all_eq_true]
  constructor
  · rintro ⟨h1, h2⟩
    refine ⟨h1, fun d hd m hm => ?_⟩
    have := h2 d hd
    rw [hm] at this
    simpa using this
  · rintro ⟨h1, h2⟩
    refine ⟨h1, fun d hd => ?_⟩
    cases hm : th.perDimension.lookup d.name with
    | none => simp
    | some m => simpa using h2 d hd m hm

/-- Witness for C3: with no per-dimension minima and overall minimum 70, a
final score of 100 (all dimensions perfect) is marked passed. -/
theorem c3_passed_iff_witness :
    (aggregate [⟨"structure", 100, 25⟩, ⟨"visual", 100, 25⟩,
        ⟨"content", 100, 25⟩, ⟨"tag", 100, 25⟩] ⟨[], 70⟩).2 = true :=
  (c3_passed_iff _ _).mpr ⟨by norm_num [aggregate, finalScore], by simp⟩

/-! ## Default weights and the product surface (claim C1) -/

/-- Modelled from the spec: default per-dimension weights
25/25/25/25 for structure, visual, content and tag, applied when the caller
does not override weights (spec §6; the aggregator's implementation file is
not in the repository snapshot). -/
def defaultWeights : List (String × ℚ) :=
  [("structure", 25), ("visual", 25), ("content", 25), ("tag", 25)]

/-- Weights shown in `README.md` "Evaluation Scoring" (lines 169–173): DOM 25%,
Visual 25%, Content 25%, Tag 25%. -/
def readmeScoringWeights : List (String × Nat) :=
  [("DOM Score", 25), ("Visual Score", 25), ("Content Score", 25), ("Tag Score", 25)]

/-- Weights shown by the expected-result tip of
`frontend/src/pages/ChallengeView.jsx` (lines 436–437): DOM Structure 40%,
Visual Appearance 60%. -/
def challengeViewTipWeights : List (String × Nat) :=
  [("DOM Structure", 40), ("Visual Appearance", 60)]

/-- C1 counterexample: the ChallengeView product surface does not present the
25/25/25/25 weighting — its expected-result tip presents DOM Structure at 40%
and Visual Appearance at 60%. -/
theorem c1_challenge_view_weights_not_25 :
    challengeViewTipWeights.lookup "DOM Structure" = some 40 ∧
    ¬ ∀ p ∈ challengeViewTipWeights, p.2 = 25 := by
  constructor
  · decide
  · intro h
    exact absurd (h ("DOM Structure", 40) (by decide)) (by decide)

/-- C1 (amended): the spec-modelled default weights are 25/25/25/25 and sum to
100, the README's Evaluation Scoring section presents exactly those weights,
aggregation with the defaults reproduces the spec's worked blend
(visual 60, others 100 → final 90), but the ChallengeView tip presents a
different 40/60 weighting. -/
theorem c1_default_weights :
    (∀ p ∈ defaultWeights, p.2 = 25) ∧
    (defaultWeights.map fun p => p.2).sum = 100 ∧
    (∀ p ∈ readmeScoringWeights, p.2 = 25) ∧
    finalScore [⟨"structure", 100, 25⟩, ⟨"visual", 60, 25⟩,
        ⟨"content", 100, 25⟩, ⟨"tag", 100, 25⟩] = 90 ∧
    (challengeViewTipWeights.lookup "DOM Structure" ≠ some 25 ∧
     challengeViewTipWeights.lookup "Visual Appearance" ≠ some 25) := by
  refine ⟨?_, by norm_num [defaultWeights], by decide, ?_, by decide, by decide⟩
  · intro p hp
    fin_cases hp <;> norm_num
  · norm_num [finalScore]

/-! ## Admin feedback lists (`frontend/src/pages/AdminDashboardNew.jsx`) -/

/-- A loosely-typed JavaScript value, as the admin dashboard receives it from
the parsed submission payload.  Numbers are modelled as rationals (`NaN` has
no counterpart and is not modelled). -/
inductive JVal where
  | jsUndefined
  | null
  | bool (b : Bool)
  | num (q : ℚ)
  | str (s : String)
  | arr (xs : List JVal)
  | obj (fields : List (String × JVal))

/-- JavaScript truthiness of a value. -/
def JVal.truthy : JVal → Bool
  | .jsUndefined => false
  | .null => false
  | .bool b => b
  | .num q => decide (q ≠ 0)
  | .str s => decide (s ≠ "")
  | .arr _ => true
  | .obj _ => true

/-- `typeof v === 'object'` (true for `null`, arrays and plain objects). -/
def JVal.typeofObject : JVal → Bool
  | .null => true
  | .arr _ => true
  | .obj _ => true
  | _ => false

/-- `Array.isArray(v)`. -/
def JVal.isArr : JVal → Bool
  | .arr _ => true
  | _ => false

/-- Property access `v[k]`, yielding `undefined` when absent or when `v` is
not an object. -/
def JVal.getField (v : JVal) (k : String) : JVal :=
  match v with
  | .obj fields => (fields.lookup k).getD .jsUndefined
  | _ => .jsUndefined

/-- Strict equality `v === 0` against the number literal 0 (only the shapes
`normalizeList` can see; arrays are handled before this test). -/
def JVal.strictEqZero : JVal → Bool
  | .num q => decide (q = 0)
  | _ => false

/-- `normalizeList` from `AdminDashboardNew.jsx`: an array is returned as is,
a falsy value other than the number 0 becomes `[]`, anything else is wrapped
in a singleton. -/
def normalizeList (value : JVal) : List JVal :=
  match value with
  | .arr xs => xs
  | v => if !v.truthy && !v.strictEqZero then [] else [v]

/-- `feedbackIsObject` from `renderSubmissionDetailBody`:
`rawFeedback && typeof rawFeedback === 'object' && !Array.isArray(rawFeedback)`. -/
def feedbackIsObject (rawFeedback : JVal) : Bool :=
  rawFeedback.truthy && rawFeedback.typeofObject && !rawFeedback.isArr

/-- `feedbackString` from `renderSubmissionDetailBody`: the raw feedback when
it is a string, otherwise the empty string. -/
def feedbackString (rawFeedback : JVal) : String :=
  match rawFeedback with
  | .str s => s
  | _ => ""

/-- Shared fallback of the encouragement list IIFE:
`feedbackString ? [feedbackString] : ['Great progress!']`. -/
def encouragementFallback (rawFeedback : JVal) : List JVal :=
  if feedbackString rawFeedback ≠ "" then [.str (feedbackString rawFeedback)]
  else [.str "Great progress!"]

/-- `encouragementList` from `renderSubmissionDetailBody`: the normalized
`feedback.encouragement` values when the feedback is an object and they are
non-empty, otherwise the fallback. -/
def encouragementList (rawFeedback : JVal) : List JVal :=
  if feedbackIsObject rawFeedback then
    if (normalizeList (rawFeedback.getField "encouragement")).length ≠ 0 then
      normalizeList (rawFeedback.getField "encouragement")
    else encouragementFallback rawFeedback
  else encouragementFallback rawFeedback

/-- `improvementsList` from `renderSubmissionDetailBody`; its fallback is the
fixed hint about reviewing semantic structure and styling. -/
def improvementsList (rawFeedback : JVal) : List JVal :=
  if feedbackIsObject rawFeedback then
    if (normalizeList (rawFeedback.getField "improvements")).length ≠ 0 then
      normalizeList (rawFeedback.getField "improvements")
    else [.str "Review semantic structure and styling to match the expected output."]
  else [.str "Review semantic structure and styling to match the expected output."]

/-- C6: for every evaluation payload — perfect score, zero score, missing
feedback field, plain-string feedback, or empty encouragement/improvement
arrays — the encouragement and improvement lists built by the admin dashboard
are both non-empty. -/
theorem c6_feedback_lists_nonempty (evaluation : JVal) :
    encouragementList (evaluation.getField "feedback") ≠ [] ∧
    improvementsList (evaluation.getField "feedback") ≠ [] := by
  constructor
  · unfold encouragementList encouragementFallback
    split_ifs <;> simp_all [List.length_eq_zero]
  · unfold improvementsList
    split_ifs <;> simp_all [List.length_eq_zero]

/-! ## Preview rendering (`PreviewFrame.updatePreview`, `src/unnamed/part_000`) -/

/-- The HTML/CSS/JS triple under evaluation (spec §3 `CodeBundle`). -/
structure CodeBundle where
  html : String
  css : String
  js : String

/-- Document text preceding the interpolated CSS in the `fullHTML` template
literal of `PreviewFrame.updatePreview`. -/
def previewHead : String :=
  "\n      <!DOCTYPE html>\n      <html>\n      <head>\n        <meta charset=\"UTF-8\">\n        <meta name=\"viewport\" content=\"width=device-width, initial-scale=1.0\">\n        <style>\n          * \x7b\n            margin: 0;\n            padding: 0;\n            box-sizing: border-box;\n          \x7d\n          "

/-- Document text between the interpolated CSS and the interpolated HTML. -/
def previewMid : String :=
  "\n        </style>\n      </head>\n      <body>\n        "

/-- Document text between the interpolated HTML and the page-level try block:
the opening script tag. -/
def scriptTagOpen : String :=
  "\n        <script>\n          "

/-- The opening of the page-level try block, placed directly before the
interpolated JS. -/
def tryOpen : String :=
  "try \x7b\n            "

/-- Document text directly after the interpolated JS: the catch handler
logging `JavaScript Error:` via `console.error`, then the closing tags. -/
def catchClose : String :=
  "\n          \x7d catch (error) \x7b\n            console.error(\x27JavaScript Error:\x27, error);\n          \x7d\n        </script>\n      </body>\n      </html>\n    "

/-- The `fullHTML` document string written into the preview iframe by
`updatePreview` (string fields make `codeToRender.css || ''` the identity). -/
def fullHTML (b : CodeBundle) : String :=
  previewHead ++ b.css ++ previewMid ++ b.html ++ scriptTagOpen ++ tryOpen ++ b.js ++ catchClose

/-- Page-level execution of the emitted script: the candidate script's outcome
is run inside the template's try/catch, whose handler turns a thrown error
into a `console.error` log entry. -/
def pageScript (jsExec : Except String Unit) : Except String (List String) :=
  Except.tryCatch (jsExec.map fun _ => []) fun e => .ok ["JavaScript Error: " ++ e]

/-- The outcome of one preview render. -/
structure RenderedDoc where
  markup : String
  consoleErrors : List String
  aborted : Bool

/-- The preview produced by `updatePreview` for a bundle, given the execution
outcome of the candidate script: the full document is written via
`document.write`, and an uncaught script exception would mark the render
aborted — the try/catch in the emitted page makes that branch unreachable. -/
def updatePreview (b : CodeBundle) (jsExec : Except String Unit) : RenderedDoc :=
  match pageScript jsExec with
  | .ok logs => ⟨fullHTML b, logs, false⟩
  | .error e => ⟨"", [e], true⟩

/-- C5: the preview document embeds the bundle's js between the page-level
`try {` and `} catch`, a thrown script exception is caught and logged without
aborting the render, and the bundle's html and css appear in the written
document unchanged. -/
theorem c5_script_error_contained (b : CodeBundle) (jsExec : Except String Unit) :
    (updatePreview b jsExec).aborted = false ∧
    (updatePreview b jsExec).markup =
      previewHead ++ b.css ++ previewMid ++ b.html ++
        scriptTagOpen ++ tryOpen ++ b.js ++ catchClose ∧
    (∀ e, jsExec = .error e →
      (updatePreview b jsExec).consoleErrors = ["JavaScript Error: " ++ e]) ∧
    (jsExec = .ok () → (updatePreview b jsExec).consoleErrors = []) := by
  cases jsExec with
  | ok u =>
    refine ⟨rfl, rfl, ?_, ?_⟩
    · intro e he
      cases he
    · intro he
      rfl
  | error e =>
    refine ⟨rfl, rfl, ?_, ?_⟩
    · intro e' he'
      cases he'
      rfl
    · intro he
      cases he

/-- Witness for C5 at a concrete bundle whose script throws "boom": the render
is not aborted and the error is logged. -/
theorem c5_script_error_contained_witness :
    (updatePreview ⟨"<h1>hi</h1>", "h1 \x7b color: red; \x7d", "throw new Error()"⟩
        (.error "boom")).aborted = false ∧
    (updatePreview ⟨"<h1>hi</h1>", "h1 \x7b color: red; \x7d", "throw new Error()"⟩
        (.error "boom")).consoleErrors = ["JavaScript Error: " ++ "boom"] :=
  ⟨(c5_script_error_contained _ _).1,
   (c5_script_error_contained _ _).2.2.1 "boom" rfl⟩

/-! ## Viewport and pixel basis (spec §4.1, §4.3; render code not in the snapshot) -/

/-- Modelled from the spec: the Render Service's fixed viewport width of 960
pixels (spec §4.1; the puppeteer render code is not in the snapshot). -/
def viewportWidth : Nat := 960

/-- Modelled from the spec: the Render Service's fixed viewport height of 960
pixels (spec §4.1). -/
def viewportHeight : Nat := 960

/-- An RGB pixel. -/
structure Pixel where
  r : Nat
  g : Nat
  b : Nat
  deriving DecidableEq

/-- A screenshot buffer (spec §3 `PixelBuffer`). -/
structure Screenshot where
  width : Nat
  height : Nat
  pixels : List Pixel

/-- Modelled from the spec: the screenshot a render produces always has the
fixed 960×960 viewport dimensions. -/
def renderScreenshot (pixels : List Pixel) : Screenshot :=
  ⟨viewportWidth, viewportHeight, pixels⟩

/-- The denominator of the visual score: the total pixel count of the
comparison basis. -/
def totalPixelCount (a : Screenshot) : Nat :=
  a.width * a.height

/-- The pixel count the ChallengeView surface cites ("921,600 pixels",
`ChallengeView.jsx` lines 437 and 461). -/
def challengeViewCitedPixelCount : Nat := 921600

/-- C7: a 960×960 render yields a comparison basis of exactly
960 × 960 = 921600 pixels, matching the count cited on the product surface,
so the visual denominator is the constant 921600 for every comparison of
rendered screenshots. -/
theorem c7_pixel_basis (pixels : List Pixel) :
    totalPixelCount (renderScreenshot pixels) = 921600 ∧
    viewportWidth * viewportHeight = challengeViewCitedPixelCount ∧
    totalPixelCount (renderScreenshot pixels) = challengeViewCitedPixelCount := by
  refine ⟨?_, ?_, ?_⟩ <;>
    norm_num [totalPixelCount, renderScreenshot, viewportWidth, viewportHeight,
      challengeViewCitedPixelCount]

/-! ## Level question assignment (`GET /api/courses/:courseId/levels/:level/questions`) -/

/-- A question (challenge) as the level-questions route reads it from the
question bank: only its id and a payload standing for the remaining fields
matter to the assignment logic. -/
structure Question where
  id : String
  title : String
  deriving DecidableEq

/-- One persisted user assignment from `user-assignments.json`. -/
structure Assignment where
  key : String
  userId : String
  courseId : String
  level : Int
  assignedQuestions : List String
  completedQuestions : List String
  assignedAt : String
  totalAvailable : Nat
  deriving DecidableEq

/-- The assignment key `` `${userId}-${courseId}-${level}` ``. -/
def assignmentKey (userId courseId level : String) : String :=
  userId ++ "-" ++ courseId ++ "-" ++ level

/-- The level-questions route handler.  `assignments` is the persisted state,
`levelNum` is `parseInt(level)`, `now` the timestamp, `allQuestions` the
question bank returned by `ChallengeModel.findByCourseLevel`, and `shuffled`
the randomized copy `[...allQuestions].sort(() => 0.5 - Math.random())`
(some permutation of the bank).  Returns `none` for the 404 branch, otherwise
the new state and the `(question, isCompleted)` rows sent to the client. -/
def handleLevelQuestions (assignments : List Assignment) (courseId level : String)
    (levelNum : Int) (userId now : String) (allQuestions shuffled : List Question) :
    Option (List Assignment × List (Question × Bool)) :=
  if allQuestions.length = 0 then none
  else
    match assignments.find? fun a => a.key == assignmentKey userId courseId level with
    | some userAssignment =>
        some (assignments,
          (allQuestions.filter fun q => userAssignment.assignedQuestions.contains q.id).map
            fun q => (q, userAssignment.completedQuestions.contains q.id))
    | none =>
        let selectedQuestions := shuffled.take (min 2 allQuestions.length)
        let userAssignment : Assignment :=
          { key := assignmentKey userId courseId level
            userId := userId
            courseId := courseId
            level := levelNum
            assignedQuestions := selectedQuestions.map fun q => q.id
            completedQuestions := []
            assignedAt := now
            totalAvailable := allQuestions.length }
        some (assignments ++ [userAssignment],
          (allQuestions.filter fun q => userAssignment.assignedQuestions.contains q.id).map
            fun q => (q, userAssignment.completedQuestions.contains q.id))

theorem find?_append_of_none {α : Type} (p : α → Bool) (l₁ l₂ : List α)
    (h : l₁.find? p = none) : (l₁ ++ l₂).find? p = l₂.find? p := by
  induction l₁ with
  | nil => rfl
  | cons x xs ih =>
    rw [List.find?_cons] at h
    cases hx : p x with
    | true => rw [hx] at h; cases h
    | false =>
      rw [hx] at h
      rw [List.cons_append, List.find?_cons, hx]
      exact ih h

/-- C8: on a user's first request for a level (no assignment stored under the
key) with a non-empty bank, the handler persists an assignment of
`min 2 (bank size)` question ids all drawn from the bank; every subsequent
request under the same key leaves the stored assignments unchanged and
returns exactly the bank questions whose ids are the persisted ones. -/
theorem c8_assignment_persists (s : List Assignment) (courseId level : String)
    (levelNum levelNum2 : Int) (userId now now2 : String)
    (bank shuffled bank2 shuffled2 : List Question)
    (hfirst : s.find? (fun a => a.key == assignmentKey userId courseId level) = none)
    (hbank : bank ≠ []) (hperm : shuffled.Perm bank) (hbank2 : bank2 ≠ []) :
    ∃ a : Assignment,
      handleLevelQuestions s courseId level levelNum userId now bank shuffled =
        some (s ++ [a],
          (bank.filter fun q => a.assignedQuestions.contains q.id).map fun q => (q, false)) ∧
      a.key = assignmentKey userId courseId level ∧
      a.assignedQuestions.length = min 2 bank.length ∧
      (∀ qid ∈ a.assignedQuestions, ∃ q ∈ bank, q.id = qid) ∧
      handleLevelQuestions (s ++ [a]) courseId level levelNum2 userId now2 bank2 shuffled2 =
        some (s ++ [a],
          (bank2.filter fun q => a.assignedQuestions.contains q.id).map fun q => (q, false)) := by
  have hlen : bank.length ≠ 0 := fun h => hbank (List.length_eq_zero.mp h)
  refine ⟨{ key := assignmentKey userId courseId level
            userId := userId
            courseId := courseId
            level := levelNum
            assignedQuestions := (shuffled.take (min 2 bank.length)).map fun q => q.id
            completedQuestions := []
            assignedAt := now
            totalAvailable := bank.length }, ?_, rfl, ?_, ?_, ?_⟩
  · unfold handleLevelQuestions
    rw [if_neg hlen, hfirst]
    simp only []
    congr 1
  · simp only [List.length_map, List.length_take, hperm.length_eq]
    omega
  · intro qid hqid
    simp only [List.mem_map] at hqid
    obtain ⟨q, hq, rfl⟩ := hqid
    exact ⟨q, hperm.mem_iff.mp (List.mem_of_mem_take hq), rfl⟩
  · have hlen2 : bank2.length ≠ 0 := fun h => hbank2 (List.length_eq_zero.mp h)
    unfold handleLevelQuestions
    rw [if_neg hlen2, find?_append_of_none _ _ _ hfirst]
    simp [List.find?_cons]

/-- Witness for C8: a first request on an empty store with a three-question
bank assigns exactly two question ids under the expected key. -/
theorem c8_assignment_persists_witness :
    ∃ a : Assignment,
      a.key = assignmentKey "u" "c" "1" ∧ a.assignedQuestions.length = 2 := by
  obtain ⟨a, -, h2, h3, -, -⟩ :=
    c8_assignment_persists [] "c" "1" 1 1 "u" "t0" "t1"
      [⟨"q1", "A"⟩, ⟨"q2", "B"⟩, ⟨"q3", "C"⟩]
      [⟨"q3", "C"⟩, ⟨"q1", "A"⟩, ⟨"q2", "B"⟩]
      [⟨"q1", "A"⟩, ⟨"q2", "B"⟩, ⟨"q3", "C"⟩]
      [⟨"q2", "B"⟩, ⟨"q1", "A"⟩, ⟨"q3", "C"⟩]
      rfl (by decide) (by decide) (by decide)
  exact ⟨a, h2, by rw [h3]; norm_num⟩

/-! ## Bulk level upload (`POST /api/courses/:courseId/levels/:level/questions/bulk`) -/

/-- A stored challenge record, restricted to the fields the bulk upload
touches; `rest` stands for the remaining uploaded fields carried through the
object spreads. -/
structure StoredQuestion where
  id : String
  title : String
  courseId : String
  level : Int
  rest : String
  deriving DecidableEq

/-- One uploaded question object.  An empty `id` or `title` models the JS
falsy check `!question.id || !question.title`; any `courseId`/`level` values
present in the upload are discarded by the forced keys of `questionData`, so
they are not modelled. -/
structure UploadQuestion where
  id : String
  title : String
  rest : String
  deriving DecidableEq

/-- `questionData` from the bulk route: the uploaded question with `courseId`
and `level` forced to the URL parameters (`level` already `parseInt`ed). -/
def questionData (urlCourseId : String) (urlLevel : Int) (q : UploadQuestion) : StoredQuestion :=
  { id := q.id, title := q.title, courseId := urlCourseId, level := urlLevel, rest := q.rest }

/-- Replace the first stored question whose id equals `qd.id` by `qd`
(the `findIndex` + in-place update of the route); `none` when no id
matches. -/
def updateById (qd : StoredQuestion) : List StoredQuestion → Option (List StoredQuestion)
  | [] => none
  | c :: cs =>
      if c.id = qd.id then some (qd :: cs)
      else (updateById qd cs).map fun cs' => c :: cs'

/-- One iteration of the bulk upload loop: skip an invalid question, update
the existing record in place, or append a new one. -/
def upsertQuestion (urlCourseId : String) (urlLevel : Int)
    (challenges : List StoredQuestion) (q : UploadQuestion) : List StoredQuestion :=
  if q.id = "" ∨ q.title = "" then challenges
  else
    match updateById (questionData urlCourseId urlLevel q) challenges with
    | some challenges' => challenges'
    | none => challenges ++ [questionData urlCourseId urlLevel q]

/-- The bulk upload loop `questions.forEach(...)` over the stored
challenges. -/
def bulkUpload (urlCourseId : String) (urlLevel : Int)
    (challenges : List StoredQuestion) (questions : List UploadQuestion) : List StoredQuestion :=
  questions.foldl (upsertQuestion urlCourseId urlLevel) challenges

theorem updateById_map_id (qd : StoredQuestion) (cs cs' : List StoredQuestion)
    (h : updateById qd cs = some cs') :
    cs'.map (fun c => c.id) = cs.map fun c => c.id := by
  induction cs generalizing cs' with
  | nil => cases h
  | cons c cs ih =>
    rw [updateById] at h
    split_ifs at h with hc
    · cases h
      simp [hc]
    · cases hrec : updateById qd cs with
      | none => rw [hrec] at h; cases h
      | some cs'' =>
        rw [hrec] at h
        cases h
        simp [ih cs'' hrec]

theorem updateById_mem (qd : StoredQuestion) (cs cs' : List StoredQuestion)
    (h : updateById qd cs = some cs') :
    ∀ c ∈ cs', c ∈ cs ∨ c = qd := by
  induction cs generalizing cs' with
  | nil => cases h
  | cons c cs ih =>
    rw [updateById] at h
    split_ifs at h with hc
    · cases h
      intro x hx
      rcases List.mem_cons.mp hx with rfl | hx
      · exact Or.inr rfl
      · exact Or.inl (List.mem_cons_of_mem _ hx)
    · cases hrec : updateById qd cs with
      | none => rw [hrec] at h; cases h
      | some cs'' =>
        rw [hrec] at h
        cases h
        intro x hx
        rcases List.mem_cons.mp hx with rfl | hx
        · exact Or.inl (List.mem_cons_self _ _)
        · rcases ih cs'' hrec x hx with h' | h'
          · exact Or.inl (List.mem_cons_of_mem _ h')
          · exact Or.inr h'

theorem updateById_none (qd : StoredQuestion) (cs : List StoredQuestion)
    (h : updateById qd cs = none) : ∀ c ∈ cs, c.id ≠ qd.id := by
  induction cs with
  | nil => intro c hc; cases hc
  | cons c cs ih =>
    rw [updateById] at h
    split_ifs at h with hc
    · cases hrec : updateById qd cs with
      | none =>
        intro x hx
        rcases List.mem_cons.mp hx with rfl | hx
        · exact hc
        · exact ih hrec x hx
      | some cs'' => rw [hrec] at h; cases h

theorem upsertQuestion_mem (u : String) (l : Int) (cs : List StoredQuestion)
    (q : UploadQuestion) :
    ∀ c ∈ upsertQuestion u l cs q, c ∈ cs ∨ (c.courseId = u ∧ c.level = l) := by
  intro c hc
  unfold upsertQuestion at hc
  split_ifs at hc
  · exact Or.inl hc
  · cases hrec : updateById (questionData u l q) cs with
    | some cs' =>
      rw [hrec] at hc
      rcases updateById_mem _ _ _ hrec c hc with h' | rfl
      · exact Or.inl h'
      · exact Or.inr ⟨rfl, rfl⟩
    | none =>
      rw [hrec] at hc
      rcases List.mem_append.mp hc with h' | h'
      · exact Or.inl h'
      · rcases List.mem_singleton.mp h' with rfl
        exact Or.inr ⟨rfl, rfl⟩

theorem upsertQuestion_nodup (u : String) (l : Int) (cs : List StoredQuestion)
    (q : UploadQuestion) (h : (cs.map fun c => c.id).Nodup) :
    ((upsertQuestion u l cs q).map fun c => c.id).Nodup := by
  unfold upsertQuestion
  split_ifs
  · exact h
  · cases hrec : updateById (questionData u l q) cs with
    | some cs' => rw [updateById_map_id _ _ _ hrec]; exact h
    | none =>
      rw [List.map_append, List.map_singleton]
      rw [List.nodup_append]
      refine ⟨h, List.nodup_singleton _, ?_⟩
      intro x hx
      simp only [List.mem_map] at hx
      obtain ⟨c, hc, rfl⟩ := hx
      simp only [List.mem_singleton]
      exact updateById_none _ _ hrec c hc

/-- C9: after a bulk level upload, every stored question that the request
added or updated carries the URL's `courseId` and `level` (whatever values the
uploaded objects held), and uploading a question whose id already exists
updates the record in place — distinct stored ids stay distinct, so no
duplicate is created. -/
theorem c9_bulk_upload_forces_url_fields (urlCourseId : String) (urlLevel : Int)
    (cs : List StoredQuestion) (qs : List UploadQuestion)
    (hnodup : (cs.map fun c => c.id).Nodup) :
    (∀ c ∈ bulkUpload urlCourseId urlLevel cs qs,
        c ∈ cs ∨ (c.courseId = urlCourseId ∧ c.level = urlLevel)) ∧
    ((bulkUpload urlCourseId urlLevel cs qs).map fun c => c.id).Nodup := by
  induction qs generalizing cs with
  | nil => exact ⟨fun c hc => Or.inl hc, hnodup⟩
  | cons q qs ih =>
    have hstep := upsertQuestion_nodup urlCourseId urlLevel cs q hnodup
    obtain ⟨hmem, hnd⟩ := ih (upsertQuestion urlCourseId urlLevel cs q) hstep
    refine ⟨?_, hnd⟩
    intro c hc
    rcases hmem c hc with h' | h'
    · exact upsertQuestion_mem urlCourseId urlLevel cs q c h'
    · exact Or.inr h'

/-- Witness for C9: uploading an existing id "q1" and a fresh id "q9" to
course "c7" level 3 rewrites "q1" in place with the URL's course and level,
appends "q9", and keeps stored ids distinct. -/
theorem c9_bulk_upload_forces_url_fields_witness :
    bulkUpload "c7" 3 [⟨"q1", "T", "old", 1, "r"⟩]
        [⟨"q1", "T2", "r2"⟩, ⟨"q9", "T9", "r9"⟩] =
      [⟨"q1", "T2", "c7", 3, "r2"⟩, ⟨"q9", "T9", "c7", 3, "r9"⟩] ∧
    ((bulkUpload "c7" 3 [⟨"q1", "T", "old", 1, "r"⟩]
        [⟨"q1", "T2", "r2"⟩, ⟨"q9", "T9", "r9"⟩]).map fun c => c.id).Nodup :=
  ⟨by decide,
   (c9_bulk_upload_forces_url_fields "c7" 3 [⟨"q1", "T", "old", 1, "r"⟩]
      [⟨"q1", "T2", "r2"⟩, ⟨"q9", "T9", "r9"⟩] (by decide)).2⟩

/-! ## Comparators and the evaluation pipeline (spec §4.2–§4.7; the
implementing service files are not in the repository snapshot).  All
definitions in this section are modelled from the specification text. -/

/-- Modelled from the spec: a normalized DOM snapshot node (spec §3
`SerializedNode`). -/
inductive SerializedNode where
  | mk (tag : String) (attributes : List (String × String))
       (children : List SerializedNode) (textRuns : List String)

mutual
/-- Number of nodes in a DOM tree. -/
def treeSize : SerializedNode → Nat
  | .mk _ _ c _ => 1 + forestSize c

/-- Number of nodes in a list of DOM trees. -/
def forestSize : List SerializedNode → Nat
  | [] => 0
  | x :: xs => treeSize x + forestSize xs
end

/-- Modelled from the spec: edit distance between two text-run lists, used for
the text-run similarity of spec §4.2. -/
def editDist : List String → List String → Nat
  | [], ys => ys.length
  | x :: xs, [] => (x :: xs).length
  | x :: xs, y :: ys =>
      if x = y then editDist xs ys
      else 1 + min (editDist xs (y :: ys)) (min (editDist (x :: xs) ys) (editDist xs ys))
termination_by xs ys => xs.length + ys.length

theorem editDist_self (l : List String) : editDist l l = 0 := by
  induction l with
  | nil => simp [editDist]
  | cons x xs ih => rw [editDist, if_pos rfl]; exact ih

/-- Modelled from the spec: normalized edit-distance similarity of two
text-run lists (1 when both are empty: the distance is 0 and the quotient by
the zero maximum length is 0). -/
def textSim (a b : List String) : ℚ :=
  1 - (editDist a b : ℚ) / max a.length b.length

/-- Modelled from the spec: Jaccard overlap over attribute keys (spec §4.2;
the spec's special class-list handling concerns attribute values and does not
enter this key-overlap formula).  Two empty key sets count as a full
overlap. -/
def jaccardKeys (a b : List (String × String)) : ℚ :=
  if (((a.map Prod.fst).toFinset ∪ (b.map Prod.fst).toFinset).card = 0) then 1
  else (((a.map Prod.fst).toFinset ∩ (b.map Prod.fst).toFinset).card : ℚ) /
    (((a.map Prod.fst).toFinset ∪ (b.map Prod.fst).toFinset).card : ℚ)

/-- Modelled from the spec: local similarity of a matched node pair — the mean
of tag equality (binary), attribute-key Jaccard overlap, and text-run
similarity (spec §4.2). -/
def localSim (t1 t2 : String) (a1 a2 : List (String × String)) (x1 x2 : List String) : ℚ :=
  ((if t1 = t2 then (1 : ℚ) else 0) + jaccardKeys a1 a2 + textSim x1 x2) / 3

theorem textSim_self (l : List String) : textSim l l = 1 := by
  simp [textSim, editDist_self]

theorem jaccardKeys_self (a : List (String × String)) : jaccardKeys a a = 1 := by
  unfold jaccardKeys
  simp only [Finset.union_self, Finset.inter_self]
  split_ifs with h
  · rfl
  · rw [div_self]
    exact_mod_cast h

theorem localSim_self (t : String) (a : List (String × String)) (x : List String) :
    localSim t t a a x x = 1 := by
  rw [localSim, if_pos rfl, jaccardKeys_self, textSim_self]
  norm_num

mutual
/-- Modelled from the spec: the per-node similarities collected by the ordered
tree alignment of spec §4.2 — children are matched by position (the spec's
best-effort tag-frequency fallback when counts differ is left unspecified
there and is modelled as positional matching), and each node of an unmatched
subtree contributes a similarity of 0. -/
def nodeSims : SerializedNode → SerializedNode → List ℚ
  | .mk t1 a1 c1 x1, .mk t2 a2 c2 x2 =>
      localSim t1 t2 a1 a2 x1 x2 :: childSims c1 c2

/-- Similarities collected over two aligned child lists. -/
def childSims : List SerializedNode → List SerializedNode → List ℚ
  | [], [] => []
  | [], y :: ys => List.replicate (treeSize y) 0 ++ childSims [] ys
  | x :: xs, [] => List.replicate (treeSize x) 0 ++ childSims xs []
  | x :: xs, y :: ys => nodeSims x y ++ childSims xs ys
end

mutual
theorem nodeSims_self (a : SerializedNode) : ∀ q ∈ nodeSims a a, q = 1 := by
  match a with
  | .mk t attrs c x =>
    intro q hq
    rw [nodeSims] at hq
    rcases List.mem_cons.mp hq with rfl | hq
    · exact localSim_self t attrs x
    · exact childSims_self c q hq

theorem childSims_self (l : List SerializedNode) : ∀ q ∈ childSims l l, q = 1 := by
  match l with
  | [] => intro q hq; rw [childSims] at hq; cases hq
  | x :: xs =>
    intro q hq
    rw [childSims] at hq
    rcases List.mem_append.mp hq with hq | hq
    · exact nodeSims_self x q hq
    · exact childSims_self xs q hq
end

theorem nodeSims_ne_nil (a b : SerializedNode) : nodeSims a b ≠ [] := by
  match a, b with
  | .mk t1 a1 c1 x1, .mk t2 a2 c2 x2 =>
    rw [nodeSims]
    exact List.cons_ne_nil _ _

/-- Modelled from the spec: `compareDom` — the mean of all per-node local
similarities, scaled to `[0,100]` (spec §4.2). -/
def compareDom (a b : SerializedNode) : ℚ :=
  100 * ((nodeSims a b).sum / (nodeSims a b).length)

theorem sum_of_all_one (l : List ℚ) (h : ∀ q ∈ l, q = 1) : l.sum = l.length := by
  induction l with
  | nil => simp
  | cons x xs ih =>
    rw [List.sum_cons, h x (List.mem_cons_self x xs), List.length_cons,
      ih fun q hq => h q (List.mem_cons_of_mem x hq)]
    push_cast
    ring

theorem compareDom_self (a : SerializedNode) : compareDom a a = 100 := by
  rw [compareDom, sum_of_all_one _ (nodeSims_self a)]
  rw [div_self, mul_one]
  have hne := nodeSims_ne_nil a a
  have hlen : (nodeSims a a).length ≠ 0 := fun h => hne (List.length_eq_zero.mp h)
  exact_mod_cast hlen

mutual
/-- Modelled from the spec: strict-mode per-node similarities for the
tag-specific dimension — exact tag-for-tag alignment with no fuzzy fallback
(spec §4.2), so the local similarity is tag equality alone. -/
def tagSims : SerializedNode → SerializedNode → List ℚ
  | .mk t1 _ c1 _, .mk t2 _ c2 _ =>
      (if t1 = t2 then (1 : ℚ) else 0) :: tagChildSims c1 c2

/-- Strict-mode similarities over two aligned child lists. -/
def tagChildSims : List SerializedNode → List SerializedNode → List ℚ
  | [], [] => []
  | [], y :: ys => List.replicate (treeSize y) 0 ++ tagChildSims [] ys
  | x :: xs, [] => List.replicate (treeSize x) 0 ++ tagChildSims xs []
  | x :: xs, y :: ys => tagSims x y ++ tagChildSims xs ys
end

mutual
theorem tagSims_self (a : SerializedNode) : ∀ q ∈ tagSims a a, q = 1 := by
  match a with
  | .mk t attrs c x =>
    intro q hq
    rw [tagSims] at hq
    rcases List.mem_cons.mp hq with rfl | hq
    · rw [if_pos rfl]
    · exact tagChildSims_self c q hq

theorem tagChildSims_self (l : List SerializedNode) : ∀ q ∈ tagChildSims l l, q = 1 := by
  match l with
  | [] => intro q hq; rw [tagChildSims] at hq; cases hq
  | x :: xs =>
    intro q hq
    rw [tagChildSims] at hq
    rcases List.mem_append.mp hq with hq | hq
    · exact tagSims_self x q hq
    · exact tagChildSims_self xs q hq
end

/-- Modelled from the spec: the tag-specific dimension score — strict-mode
mean tag similarity scaled to `[0,100]`. -/
def compareTags (a b : SerializedNode) : ℚ :=
  100 * ((tagSims a b).sum / (tagSims a b).length)

theorem compareTags_self (a : SerializedNode) : compareTags a a = 100 := by
  rw [compareTags, sum_of_all_one _ (tagSims_self a)]
  rw [div_self, mul_one]
  have hne : tagSims a a ≠ [] := by
    match a with
    | .mk t attrs c x => rw [tagSims]; exact List.cons_ne_nil _ _
  have hlen : (tagSims a a).length ≠ 0 := fun h => hne (List.length_eq_zero.mp h)
  exact_mod_cast hlen

/-- Modelled from the spec: longest-common-subsequence length over token
lists (spec §4.4). -/
def lcsLen : List String → List String → Nat
  | [], _ => 0
  | _ :: _, [] => 0
  | x :: xs, y :: ys =>
      if x = y then 1 + lcsLen xs ys
      else max (lcsLen (x :: xs) ys) (lcsLen xs (y :: ys))
termination_by xs ys => xs.length + ys.length

theorem lcsLen_self (l : List String) : lcsLen l l = l.length := by
  induction l with
  | nil => simp [lcsLen]
  | cons x xs ih => rw [lcsLen, if_pos rfl, ih, List.length_cons]; omega

/-- Modelled from the spec: whitespace/case normalization of extracted text
tokens — lowercase every token and drop whitespace-collapsed empty ones
(spec §4.4). -/
def normalizeTokens (ts : List String) : List String :=
  (ts.map fun s => String.mk (s.data.map Char.toLower)).filter fun s => s ≠ ""

/-- Modelled from the spec: `compareContent` — the LCS ratio over normalized
tokens scaled to `[0,100]`, with two empty token lists counting as a full
match (spec §4.4). -/
def compareContent (a b : List String) : ℚ :=
  if (normalizeTokens a).length = 0 ∧ (normalizeTokens b).length = 0 then 100
  else 100 * (lcsLen (normalizeTokens a) (normalizeTokens b) : ℚ) /
    max (normalizeTokens a).length (normalizeTokens b).length

theorem compareContent_self (a : List String) : compareContent a a = 100 := by
  rw [compareContent]
  split_ifs with h
  · rfl
  · rw [lcsLen_self, max_self]
    have hlen : (normalizeTokens a).length ≠ 0 := by tauto
    rw [mul_div_assoc, div_self, mul_one]
    exact_mod_cast hlen

/-- Per-channel distance rolled into one per-pixel delta. -/
def pixelDelta (p q : Pixel) : Nat :=
  max (max (Nat.dist p.r q.r) (Nat.dist p.g q.g)) (Nat.dist p.b q.b)

/-- Modelled from the spec: a pixel pair mismatches when its delta exceeds the
perceptual tolerance (spec §4.3). -/
def pixelMismatch (tol : Nat) (p q : Pixel) : Bool :=
  decide (tol < pixelDelta p q)

/-- Modelled from the spec: the number of mismatched pixel pairs. -/
def mismatchedPixelCount (tol : Nat) (a b : Screenshot) : Nat :=
  ((a.pixels.zip b.pixels).filter fun pq => pixelMismatch tol pq.1 pq.2).length

/-- Modelled from the spec: `compareVisual` — requires identical resolutions
(otherwise `DimensionMismatch`), and scores
`100 × (1 − mismatchedPixelCount / totalPixelCount)` floored at 0
(spec §4.3). -/
def compareVisual (tol : Nat) (a b : Screenshot) : Except String ℚ :=
  if a.width = b.width ∧ a.height = b.height then
    .ok (max 0 (100 * (1 - (mismatchedPixelCount tol a b : ℚ) / (totalPixelCount a : ℚ))))
  else .error "DimensionMismatch"

theorem filter_mismatch_self (tol : Nat) (l : List Pixel) :
    ((l.zip l).filter fun pq => pixelMismatch tol pq.1 pq.2) = [] := by
  induction l with
  | nil => rfl
  | cons x xs ih =>
    rw [List.zip_cons_cons, List.filter_cons]
    have hx : pixelMismatch tol x x = false := by
      simp [pixelMismatch, pixelDelta, Nat.dist_self]
    rw [hx]
    exact ih

theorem compareVisual_self (tol : Nat) (a : Screenshot) :
    compareVisual tol a a = .ok 100 := by
  rw [compareVisual, if_pos ⟨rfl, rfl⟩]
  rw [mismatchedPixelCount, filter_mismatch_self]
  norm_num

/-- Modelled from the spec: the render artifact of one bundle
(spec §3 `RenderArtifact`, restricted to the fields the comparators read). -/
structure RenderArtifact where
  domTree : SerializedNode
  screenshot : Screenshot
  textContent : List String

/-- The visual dimension score fed to the aggregator: a comparator failure is
contained and scored 0 (spec §4.7). -/
def visualScoreOf (tol : Nat) (a b : Screenshot) : ℚ :=
  match compareVisual tol a b with
  | .ok s => s
  | .error _ => 0

/-- Modelled from the spec: the four dimension scores of one evaluation under
the default 25/25/25/25 weights (spec §2, §4.5, §6). -/
def dimensionScores (tol : Nat) (cand expd : RenderArtifact) : List DimensionScore :=
  [⟨"structure", compareDom cand.domTree expd.domTree, 25⟩,
   ⟨"visual", visualScoreOf tol cand.screenshot expd.screenshot, 25⟩,
   ⟨"content", compareContent cand.textContent expd.textContent, 25⟩,
   ⟨"tag", compareTags cand.domTree expd.domTree, 25⟩]

/-- Modelled from the spec: the evaluation pipeline after both renders —
comparators feeding the aggregator (spec §2, §4.7). -/
def evaluateArtifacts (tol : Nat) (cand expd : RenderArtifact) (th : Thresholds) : ℤ × Bool :=
  aggregate (dimensionScores tol cand expd) th

theorem lookup_le_of_all {l : List (String × ℚ)} (h : ∀ p ∈ l, p.2 ≤ 100)
    {k : String} {m : ℚ} (hm : l.lookup k = some m) : m ≤ 100 := by
  induction l with
  | nil => cases hm
  | cons p tl ih =>
    rw [List.lookup] at hm
    cases hkey : (k == p.1) with
    | true =>
      simp only [hkey] at hm
      cases hm
      exact h p (List.mem_cons_self p tl)
    | false =>
      simp only [hkey] at hm
      exact ih (fun q hq => h q (List.mem_cons_of_mem p hq)) hm

theorem dimensionScores_self (tol : Nat) (a : RenderArtifact) :
    dimensionScores tol a a =
      [⟨"structure", 100, 25⟩, ⟨"visual", 100, 25⟩,
       ⟨"content", 100, 25⟩, ⟨"tag", 100, 25⟩] := by
  rw [dimensionScores, compareDom_self, compareContent_self, compareTags_self]
  have hv : visualScoreOf tol a.screenshot a.screenshot = 100 := by
    rw [visualScoreOf, compareVisual_self]
  rw [hv]

/-- C4: evaluating a deterministic render of the expected bundle against
itself yields DOM score 100, visual score 100 within tolerance, content score
100, tag score 100, final score 100, and (whenever the thresholds do not
exceed the maximal score 100) passed = true. -/
theorem c4_self_evaluation_max (render : CodeBundle → RenderArtifact) (b : CodeBundle)
    (tol : Nat) (th : Thresholds)
    (hover : th.overallMinScore ≤ 100)
    (hper : ∀ p ∈ th.perDimension, p.2 ≤ (100 : ℚ)) :
    compareDom (render b).domTree (render b).domTree = 100 ∧
    compareVisual tol (render b).screenshot (render b).screenshot = .ok 100 ∧
    compareContent (render b).textContent (render b).textContent = 100 ∧
    compareTags (render b).domTree (render b).domTree = 100 ∧
    evaluateArtifacts tol (render b) (render b) th = (100, true) := by
  refine ⟨compareDom_self _, compareVisual_self _ _, compareContent_self _,
    compareTags_self _, ?_⟩
  rw [evaluateArtifacts, aggregate, dimensionScores_self]
  have hfinal : finalScore
      [⟨"structure", 100, 25⟩, ⟨"visual", 100, 25⟩,
       ⟨"content", 100, 25⟩, ⟨"tag", 100, 25⟩] = 100 := by
    norm_num [finalScore]
  rw [hfinal]
  refine Prod.ext rfl ?_
  show aggregatePassed 100 _ th = true
  rw [aggregatePassed, Bool.and_eq_true]
  constructor
  · rw [decide_eq_true_eq]
    push_cast
    exact hover
  · rw [List.all_eq_true]
    intro d hd
    fin_cases hd <;>
      · show (match th.perDimension.lookup _ with
          | some m => decide (m ≤ _)
          | none => true) = true
        cases hm : th.perDimension.lookup _ with
        | none => rfl
        | some m =>
          rw [decide_eq_true_eq]
          exact lookup_le_of_all hper hm

/-- Witness for C4 at a concrete expected artifact and thresholds
(overall minimum 70, visual minimum 80): the self-evaluation is a perfect
pass. -/
theorem c4_self_evaluation_max_witness :
    evaluateArtifacts 10
      ⟨.mk "body" [("class", "a b")] [.mk "h1" [] [] ["hi"]] [],
       ⟨960, 960, [⟨10, 20, 30⟩]⟩, ["Hello", "World"]⟩
      ⟨.mk "body" [("class", "a b")] [.mk "h1" [] [] ["hi"]] [],
       ⟨960, 960, [⟨10, 20, 30⟩]⟩, ["Hello", "World"]⟩
      ⟨[("visual", 80)], 70⟩ = (100, true) :=
  (c4_self_evaluation_max
    (fun _ => ⟨.mk "body" [("class", "a b")] [.mk "h1" [] [] ["hi"]] [],
      ⟨960, 960, [⟨10, 20, 30⟩]⟩, ["Hello", "World"]⟩)
    ⟨"", "", ""⟩ 10 ⟨[("visual", 80)], 70⟩
    (by norm_num)
    (by intro p hp; fin_cases hp; norm_num)).2.2.2.2

end Portal
